import Mathlib

/-!
# Verification of the sentry-clip processing core (`src/clip.rs`)

Shallow embedding of the event aggregation and composition pipeline:
`SentryClip::from_folder`, `is_empty`, `files_per_camera`,
`concatenate_camera_files`, `create_mosaic`, `mosaic_file`, and the free
functions `delete_files`, `create_temp_playlist`, `process_folder`,
`list_files`.

Modelling conventions:
* Filesystem paths (`PathBuf`) are a flag for absoluteness plus a list of
  components; `join` appends one component, `parent` drops the last one,
  `display`/`to_str` renders with `/` separators.  Non-UTF-8 paths are not
  representable in the model, so `to_str` is total.
* `chrono::NaiveDateTime` is a record of calendar fields; only its
  `format` outputs and its `timestamp()` value matter to the code, the
  latter modelled by an explicit `timestamp` field.
* External effects (directory listing, per-entry results, per-file
  parsing, playlist write, process spawn, file deletion) are supplied as
  explicit world data: each operation's outcome is a value the embedded
  function consumes, so every function stays executable.
* The external transcoding backend is opaque: invoking it is recorded as
  a flag plus the exact argument list handed to it, and the world decides
  whether the spawn fails and with which exit code the process ends.
-/

/-- Model of `std::path::PathBuf`: absolute-path flag plus components.
Components are plain names (no `/`, no `.`/`..` entries). -/
structure RPath where
  absolute : Bool
  comps : List String
deriving DecidableEq, Repr

namespace RPath

/-- `PathBuf::join` with a single (relative) component. -/
def join (p : RPath) (name : String) : RPath :=
  ⟨p.absolute, p.comps ++ [name]⟩

/-- `Path::parent`: drops the final component; `None` when there is no
component to drop (root `/` or the empty path). -/
def parent (p : RPath) : Option RPath :=
  match p.comps with
  | [] => none
  | _ :: _ => some ⟨p.absolute, p.comps.dropLast⟩

/-- `Path::display` / `Path::to_str` (the model has no non-UTF-8 paths,
so rendering is total). -/
def display (p : RPath) : String :=
  (if p.absolute then "/" else "") ++ String.intercalate "/" p.comps

/-- `Path::file_name`: the last component, if any. -/
def fileName (p : RPath) : Option String :=
  p.comps.getLast?

end RPath

/-- `Path::file_stem` on a bare file name: the portion before the final
`.`, except that a leading `.` with nothing before it does not count as
an extension separator (so `.hidden` is its own stem). -/
def stemOfName (s : String) : String :=
  match s.data.reverse.findIdx? (fun c => c = '.') with
  | none => s
  | some i =>
      let cut := s.data.length - 1 - i
      if cut = 0 then s else ⟨s.data.take cut⟩

/-- `Path::file_stem` composed with `OsStr::to_str` as the source uses it:
`file_stem().and_then(|f| f.to_str())`. -/
def RPath.fileStem (p : RPath) : Option String :=
  p.fileName.map stemOfName

/-- Model of `chrono::NaiveDateTime`: calendar fields plus the value its
`timestamp()` accessor returns (seconds since the epoch). -/
structure NaiveDateTime where
  year : Nat
  month : Nat
  day : Nat
  hour : Nat
  minute : Nat
  second : Nat
  millis : Nat
  timestamp : Int
deriving DecidableEq, Repr

/-- Left-pad the decimal rendering of `n` with zeros to width `w`
(chrono's numeric format specifiers). -/
def padNum (w : Nat) (n : Nat) : String :=
  let s := toString n
  ⟨List.replicate (w - s.length) '0'⟩ ++ s

/-- `format("%Y-%m-%d_%H-%M-%S")`. -/
def NaiveDateTime.formatDashed (d : NaiveDateTime) : String :=
  padNum 4 d.year ++ "-" ++ padNum 2 d.month ++ "-" ++ padNum 2 d.day ++ "_" ++
    padNum 2 d.hour ++ "-" ++ padNum 2 d.minute ++ "-" ++ padNum 2 d.second

/-- `format("%Y%m%d_%H%M%S%3f")` (used in the playlist file name). -/
def NaiveDateTime.formatCompact (d : NaiveDateTime) : String :=
  padNum 4 d.year ++ padNum 2 d.month ++ padNum 2 d.day ++ "_" ++
    padNum 2 d.hour ++ padNum 2 d.minute ++ padNum 2 d.second ++ padNum 3 d.millis

/-- Model of the external `Camera` type: identified by the string
`camera_file_name()` returns; compared by equality, as in the source. -/
structure Camera where
  camera_file_name : String
deriving DecidableEq, Repr

/-- Model of the external `CameraFile` entity: owning camera, capture
start time, filesystem path. -/
structure CameraFile where
  camera : Camera
  start_time : NaiveDateTime
  path : RPath
deriving DecidableEq, Repr

/-- `NaiveDateTime` ordering (`Ord for chrono::NaiveDateTime`), reduced to
its `timestamp()` value: the comparator `a.start_time.cmp(&b.start_time)`
sorts by instant. The model keeps calendar fields and instant in one
record; the comparator only consults the instant. -/
def CameraFile.le (a b : CameraFile) : Bool :=
  a.start_time.timestamp ≤ b.start_time.timestamp

/-- One entry of a directory listing (`std::fs::DirEntry`), together with
the outcomes of the external calls made on it: `e.path().is_file()` and
`CameraFile::from(e.path())` (the per-file parser lives outside this
crate, so its verdict is entry data in the model). -/
structure DirEntryM where
  path : RPath
  isFile : Bool
  parseResult : Except String CameraFile
deriving Repr

/-- The outcome of `root.path().read_dir()` plus the per-entry results the
iterator yields: the listing itself may fail, and each yielded entry may
be an error. -/
abbrev Listing := Except String (List (Except String DirEntryM))

/-- The per-entry selector inside `list_files`'s `filter_map`: a
successfully yielded entry is kept when it is a regular file; an errored
entry is logged and dropped. -/
def keep_file_entry (res : Except String DirEntryM) : Option DirEntryM :=
  match res with
  | .ok e => if e.isFile then some e else none
  | .error _ => none

/-- `list_files`: propagates a failure of `read_dir()` itself (the `?`),
then keeps exactly the successfully yielded entries that are regular
files; per-entry errors are logged and dropped. -/
def list_files (listing : Listing) : Except String (List DirEntryM) := do
  let children ← listing
  .ok (children.filterMap keep_file_entry)

/-- The pre-sort clip list built inside `process_folder`: each surviving
entry is handed to `CameraFile::from`; parse failures are logged and
dropped (`filter_map`). -/
def collect_clips (listing : Listing) : Except String (List CameraFile) := do
  let files ← list_files listing
  .ok (files.filterMap (fun e => e.parseResult.toOption))

/-- `process_folder`: collect the clips, then
`clips.sort_by(|a,b| a.start_time.cmp(&b.start_time))`. Rust's
`sort_by` is a stable sort for the comparator's total preorder; any
stable sort for the same preorder produces the same list, so it is
embedded as `List.mergeSort` with the corresponding boolean `le`. -/
def process_folder (listing : Listing) : Except String (List CameraFile) := do
  let clips ← collect_clips listing
  .ok (clips.mergeSort CameraFile.le)

/-- The Event Aggregate (`struct SentryClip`). -/
structure SentryClip where
  folder : RPath
  when : NaiveDateTime
  clips : List CameraFile
deriving Repr

namespace SentryClip

/-- `SentryClip::from_folder`: clips first (`process_folder(entry)?`),
then the event timestamp from the folder's base name
(`parse_tesla_timestamp(file_stem(..)?)?`, an external parser whose
verdict is the `tsParse` world value), then assembly. -/
def from_folder (folder : RPath) (listing : Listing)
    (tsParse : Except String NaiveDateTime) : Except String SentryClip := do
  let clips ← process_folder listing
  let when ← tsParse
  .ok ⟨folder, when, clips⟩

/-- `SentryClip::is_empty`. -/
def is_empty (s : SentryClip) : Bool :=
  s.clips.isEmpty

/-- `SentryClip::files_per_camera`:
`self.clips.iter().filter(|f| f.camera.eq(camera)).collect()`. -/
def files_per_camera (s : SentryClip) (camera : Camera) : List CameraFile :=
  s.clips.filter (fun f => f.camera == camera)

end SentryClip

/-- The full playlist text — the concatenation of all buffers the write
loop passes to the file: per clip the row `file '<path>'` followed by
`"\n"`, appended in order. The file holds exactly this text only when
every `write` call transfers its whole buffer (see `run_writes`). -/
def playlistContent (files : List CameraFile) : String :=
  files.foldl (fun acc c => acc ++ ("file '" ++ c.path.display ++ "'") ++ "\n") ""

/-- World data consumed by `create_temp_playlist`: the outcome of
`File::create`, the outcome of each `write` call (by call index and
buffer: an error, or `Ok(n)` — the count of bytes the kernel accepted,
`n ≤ buf.len()`), and the outcome of `sync_all`. -/
structure WriteWorld where
  create : Except String Unit
  writeRes : Nat → String → Except String Nat
  sync : Except String Unit

/-- Observable trace of one `create_temp_playlist` call: the bytes that
actually reached the file, whether `sync_all` completed before the
return, and the returned value. -/
structure PlaylistRun where
  content : String
  synced : Bool
  result : Except String Unit
deriving Repr

/-- The write loop of `create_temp_playlist`: each `file.write(buf)?`
either fails (`?` aborts the loop) or returns a byte count the code
discards — only the first `n` bytes of the buffer reach the file (a
short write is silently accepted; `min` encodes `io::Write`'s `n ≤ len`
contract). Returns the file content and the loop's result. -/
def run_writes : List String → (Nat → String → Except String Nat) → Nat → String →
    String × Except String Unit
  | [], _, _, acc => (acc, .ok ())
  | buf :: bufs, res, i, acc =>
    match res i buf with
    | .error e => (acc, .error e)
    | .ok n => run_writes bufs res (i + 1) (acc ++ ⟨buf.data.take (min n buf.data.length)⟩)

/-- `create_temp_playlist`: `File::create` (`?`, truncating), then per
clip two `write` calls — the `file '<path>'` row and `"\n"` — whose
returned byte counts are discarded (clip.rs:108-109, the
`unused_io_amount` pattern), then `sync_all` as the last step before
returning. A success therefore does **not** guarantee the full rows are
in the file, only that no call returned an error. -/
def create_temp_playlist (files : List CameraFile) (w : WriteWorld) : PlaylistRun :=
  match w.create with
  | .error e => ⟨"", false, .error e⟩
  | .ok _ =>
    let bufs := files.flatMap (fun c => ["file '" ++ c.path.display ++ "'", "\n"])
    match run_writes bufs w.writeRes 0 "" with
    | (content, .error e) => ⟨content, false, .error e⟩
    | (content, .ok _) =>
      match w.sync with
      | .error e => ⟨content, false, .error e⟩
      | .ok _ => ⟨content, true, .ok ()⟩

/-- Splitting a character stream at newline characters, as a line-based
reader of the playlist file sees it: `splitLines cs` has one entry per
newline-free segment, with a final entry for the text after the last
newline (empty when the file ends in a newline). -/
def splitLines (cs : List Char) : List (List Char) :=
  match cs with
  | [] => [[]]
  | c :: rest =>
    if c = '\n' then [] :: splitLines rest
    else
      match splitLines rest with
      | [] => [[c]]
      | l :: ls => (c :: l) :: ls

/-- Modelled from the spec: re-reading and parsing the playlist (the
parser itself is not part of the source; §8's round-trip property
defines it as reading the lines back and stripping the literal
`file '<path>'` wrapper — the 6-character prefix and the trailing
quote). -/
def parsePlaylist (content : String) : List String :=
  ((splitLines content.data).dropLast).map (fun l => ⟨(l.drop 6).dropLast⟩)

/-- World data consumed by `concatenate_camera_files`: the write-world of
the playlist file and the outcome of `Command::new("ffmpeg").status()`
(spawn error, or the child's exit code — the code never reads it). -/
structure ConcatWorld where
  playlist : WriteWorld
  spawn : Except String Int

/-- Observable trace of one `concatenate_camera_files` call. -/
structure ConcatRun where
  playlist_filename : String
  playlist : PlaylistRun
  backendInvoked : Bool
  args : List String
  result : Except String String
deriving Repr

namespace SentryClip

/-- `SentryClip::concatenate_camera_files`. `now` is the formatted
`Utc::now()` string (nondeterministic input). Steps, as in the source:
select the camera's files, name the result file and the playlist, write
the playlist (`?`), derive `<stem>-tmp.mp4` from the result file's stem
(`ok_or` path errors), run ffmpeg in concat mode (`status()?`, exit code
bound to `_status` and ignored), return the tmp path string. -/
def concatenate_camera_files (s : SentryClip) (camera : Camera)
    (now : String) (w : ConcatWorld) : ConcatRun :=
  let files := s.files_per_camera camera
  let result_file :=
    s.folder.join (s.when.formatDashed ++ "-" ++ camera.camera_file_name ++ ".mp4")
  let playlist_filename :=
    "/tmp/tesla_playlist_tmp_" ++ now ++ "_" ++ s.when.formatCompact ++ "_" ++
      camera.camera_file_name ++ ".txt"
  let pl := create_temp_playlist files w.playlist
  match pl.result with
  | .error e => ⟨playlist_filename, pl, false, [], .error e⟩
  | .ok _ =>
    match result_file.fileStem with
    | none =>
        ⟨playlist_filename, pl, false, [],
          .error ("Cannot get file name for file " ++ result_file.display)⟩
    | some stem =>
      let result_tmp_file_path := s.folder.join (stem ++ "-tmp.mp4")
      let result_tmp_file := result_tmp_file_path.display
      let args :=
        ["-f", "concat", "-safe", "0", "-i", playlist_filename, "-c", "copy",
          result_tmp_file]
      match w.spawn with
      | .error e => ⟨playlist_filename, pl, true, args, .error e⟩
      | .ok _status => ⟨playlist_filename, pl, true, args, .ok result_tmp_file⟩

/-- `SentryClip::mosaic_file`: `<parent-of-folder>/<timestamp>-mosaic.mp4`,
failing when the event folder has no parent. -/
def mosaic_file (s : SentryClip) : Except String RPath :=
  let mosaic_filename := s.when.formatDashed ++ "-mosaic.mp4"
  match s.folder.parent with
  | none => .error ("Cannot find parent folder of " ++ s.folder.display)
  | some p => .ok (p.join mosaic_filename)

end SentryClip

/-- `delete_files`: `remove_file` each path in order; the first failure
aborts the loop and propagates (`?`), leaving earlier deletions in
place. `deleteErr` is the world's verdict per path; the filesystem is a
path-existence predicate. -/
def delete_files (files : List String) (deleteErr : String → Option String)
    (fs : String → Bool) : Except String Unit × (String → Bool) :=
  match files with
  | [] => (.ok (), fs)
  | f :: rest =>
    match deleteErr f with
    | some e => (.error e, fs)
    | none => delete_files rest deleteErr (fun q => if q = f then false else fs q)

/-- The `filter_complex` string built in `create_mosaic`, a function of
`self.clips[0].start_time.timestamp()` only: four inputs scaled to
640x480 into the quadrants of a 1280x960 canvas, plus a drawtext
timestamp overlay. -/
def filterParams (ts : Int) : String :=
  "nullsrc=size=1280x960 [base]; [0:v] setpts=PTS-STARTPTS, scale=640x480 [upperleft]; [1:v] setpts=PTS-STARTPTS, scale=640x480 [upperright]; " ++
  "[2:v] setpts=PTS-STARTPTS, scale=640x480 [lowerleft]; [3:v] setpts=PTS-STARTPTS, scale=640x480 [lowerright]; [base][upperleft] overlay=shortest=1 [tmp1]; " ++
  "[tmp1][upperright] overlay=shortest=1:x=640 [tmp2]; [tmp2][lowerleft] overlay=shortest=1:y=480 [tmp3]; [tmp3][lowerright] overlay=shortest=1:x=640:y=480, " ++
  "drawtext=text='%\x7bpts\\:gmtime\\:" ++ toString ts ++ "\\:%d-%m-%Y %T\x7d': x=100 : y=800 : box=0: fontsize=32: fontcolor=GoldenRod"

/-- World data consumed by `create_mosaic`: the ffmpeg spawn outcome, the
per-path `remove_file` verdicts, and the prior filesystem contents. -/
structure MosaicWorld where
  spawn : Except String Int
  deleteErr : String → Option String
  fs0 : String → Bool

/-- How one `create_mosaic` call ends: success, a propagated error, or a
Rust panic (the `self.clips[0]` index on an empty aggregate). -/
inductive MosaicOutcome
  | ok
  | error (msg : String)
  | panicked
deriving DecidableEq, Repr

/-- Observable trace of one `create_mosaic` call. -/
structure MosaicRun where
  backendInvoked : Bool
  args : List String
  outcome : MosaicOutcome
  fs : String → Bool

namespace SentryClip

/-- `SentryClip::create_mosaic`. Steps, as in the source: derive the
mosaic path (`?` — before anything else), build `filter_params` from
`self.clips[0]` (a panic when `clips` is empty), assemble the argument
list (`-i` per input path, in order; camera identities unused), run
ffmpeg (`status()?`, exit code ignored), then `delete_files` on the
input paths (`?`). -/
def create_mosaic (s : SentryClip) (file_cameras : List (String × Camera))
    (w : MosaicWorld) : MosaicRun :=
  match s.mosaic_file with
  | .error e => ⟨false, [], .error e, w.fs0⟩
  | .ok mf =>
    match s.clips.head? with
    | none => ⟨false, [], .panicked, w.fs0⟩
    | some c0 =>
      let filter_params := filterParams c0.start_time.timestamp
      let args :=
        ["-filter_complex", filter_params] ++
          (file_cameras.flatMap (fun f => ["-i", f.1])) ++
          ["-c:v", "libx264", mf.display]
      match w.spawn with
      | .error e => ⟨true, args, .error e, w.fs0⟩
      | .ok _status =>
        match delete_files (file_cameras.map (fun t => t.1)) w.deleteErr w.fs0 with
        | (.error e, fs1) => ⟨true, args, .error e, fs1⟩
        | (.ok _, fs1) => ⟨true, args, .ok, fs1⟩

end SentryClip

/-- The deterministic per-camera concatenation output path,
`<event-folder>/<event-timestamp>-<camera-name>-tmp.mp4`. -/
def concatTmpPath (s : SentryClip) (camera : Camera) : RPath :=
  s.folder.join (s.when.formatDashed ++ "-" ++ camera.camera_file_name ++ "-tmp.mp4")

/-! ## Helper lemmas -/

theorem stemOfName_append_mp4 (name : String) (h : name ≠ "") :
    stemOfName (name ++ ".mp4") = name := by
  have hd : (name ++ ".mp4").data = name.data ++ ['.', 'm', 'p', '4'] := by
    simp [String.data_append]
  have hne : name.data ≠ [] := by
    intro hnil
    apply h
    cases name with
    | mk d =>
      simp only [String.data] at hnil
      simp [hnil]
  have hrev : (name.data ++ ['.', 'm', 'p', '4']).reverse
      = '4' :: 'p' :: 'm' :: '.' :: name.data.reverse := by
    simp
  have hfind : (name.data ++ ['.', 'm', 'p', '4']).reverse.findIdx? (fun c => c = '.')
      = some 3 := by
    rw [hrev]
    simp [List.findIdx?_cons]
  unfold stemOfName
  rw [hd, hfind]
  simp only []
  have hcut : (name.data ++ ['.', 'm', 'p', '4']).length - 1 - 3 = name.data.length := by
    simp
  rw [hcut]
  have hpos : name.data.length ≠ 0 := by
    intro h0
    exact hne (List.length_eq_zero.mp h0)
  rw [if_neg hpos]
  have : (name.data ++ ['.', 'm', 'p', '4']).take name.data.length = name.data := by
    simp [List.take_append]
  rw [this]

theorem fileStem_join (p : RPath) (name : String) :
    (p.join name).fileStem = some (stemOfName name) := by
  simp [RPath.fileStem, RPath.fileName, RPath.join]

theorem dashed_ne_empty (a b : String) : a ++ "-" ++ b ≠ "" := by
  intro h
  have := congrArg String.data h
  simp [String.data_append] at this

/-- Full evaluation of `concatenate_camera_files` when the playlist call
returns `Ok` and the backend process spawns and exits with code `code`.
(The playlist's content does not matter: the code only checks the
`Result`.) -/
theorem concatenate_run_ok (s : SentryClip) (camera : Camera) (now : String)
    (w : ConcatWorld) (code : Int)
    (hpl : (create_temp_playlist (s.files_per_camera camera) w.playlist).result = .ok ())
    (hsp : w.spawn = .ok code) :
    s.concatenate_camera_files camera now w =
      ⟨"/tmp/tesla_playlist_tmp_" ++ now ++ "_" ++ s.when.formatCompact ++ "_" ++
          camera.camera_file_name ++ ".txt",
        create_temp_playlist (s.files_per_camera camera) w.playlist,
        true,
        ["-f", "concat", "-safe", "0", "-i",
          "/tmp/tesla_playlist_tmp_" ++ now ++ "_" ++ s.when.formatCompact ++ "_" ++
            camera.camera_file_name ++ ".txt", "-c", "copy",
          (concatTmpPath s camera).display],
        .ok ((concatTmpPath s camera).display)⟩ := by
  have hstem :
      (s.folder.join (s.when.formatDashed ++ "-" ++ camera.camera_file_name ++ ".mp4")).fileStem
        = some (s.when.formatDashed ++ "-" ++ camera.camera_file_name) := by
    rw [fileStem_join, stemOfName_append_mp4 _ (dashed_ne_empty _ _)]
  unfold SentryClip.concatenate_camera_files
  simp only [hstem, hpl, hsp]
  rfl

theorem delete_files_preserves_false (files : List String)
    (d : String → Option String) (fs : String → Bool) (q : String)
    (h : fs q = false) : (delete_files files d fs).2 q = false := by
  induction files generalizing fs with
  | nil => exact h
  | cons f rest ih =>
    unfold delete_files
    cases hd : d f with
    | some e => exact h
    | none =>
      exact ih _ (by by_cases hq : q = f <;> simp [hq, h])

theorem delete_files_ok_all_deleted (files : List String)
    (d : String → Option String) (fs : String → Bool)
    (h : (delete_files files d fs).1 = .ok ()) :
    ∀ p ∈ files, (delete_files files d fs).2 p = false := by
  induction files generalizing fs with
  | nil => intro p hp; simp at hp
  | cons f rest ih =>
    intro p hp
    unfold delete_files at h ⊢
    cases hd : d f with
    | some e => rw [hd] at h; exact absurd h (by simp)
    | none =>
      rw [hd] at h
      rcases List.mem_cons.mp hp with hpf | hpr
      · subst hpf
        exact delete_files_preserves_false _ _ _ _ (by simp)
      · exact ih _ h p hpr

theorem delete_files_first_error (d : String → Option String) :
    ∀ (pre : List String) (bad : String) (post : List String)
      (fs : String → Bool) (e : String),
      (∀ q ∈ pre, d q = none) → d bad = some e →
      (delete_files (pre ++ bad :: post) d fs).1 = .error e ∧
      (∀ q ∈ pre, (delete_files (pre ++ bad :: post) d fs).2 q = false) ∧
      (∀ q, q ∉ pre → (delete_files (pre ++ bad :: post) d fs).2 q = fs q) := by
  intro pre
  induction pre with
  | nil =>
    intro bad post fs e hpre hbad
    simp only [List.nil_append]
    unfold delete_files
    rw [hbad]
    exact ⟨rfl, by simp, fun q hq => rfl⟩
  | cons p pre' ih =>
    intro bad post fs e hpre hbad
    have hp : d p = none := hpre p (List.mem_cons_self p pre')
    simp only [List.cons_append]
    unfold delete_files
    rw [hp]
    obtain ⟨h1, h2, h3⟩ := ih bad post (fun q => if q = p then false else fs q) e
      (fun q hq => hpre q (List.mem_cons_of_mem _ hq)) hbad
    refine ⟨h1, ?_, ?_⟩
    · intro q hq
      rcases List.mem_cons.mp hq with hqp | hq'
      · subst hqp
        by_cases hmem : q ∈ pre'
        · exact h2 q hmem
        · rw [h3 q hmem]; simp
      · exact h2 q hq'
    · intro q hq
      have hq1 : q ≠ p := fun hcontra => hq (hcontra ▸ List.mem_cons_self p pre')
      have hq2 : q ∉ pre' := fun hcontra => hq (List.mem_cons_of_mem _ hcontra)
      rw [h3 q hq2]
      simp [hq1]

theorem mosaic_file_of_parent_some (s : SentryClip) (p : RPath)
    (h : s.folder.parent = some p) :
    s.mosaic_file = .ok (p.join (s.when.formatDashed ++ "-mosaic.mp4")) := by
  unfold SentryClip.mosaic_file
  simp only [h]

/-- In the branch where mosaic-path derivation, the first-clip access and
the backend spawn all succeed, `create_mosaic`'s outcome and final
filesystem are exactly those of the `delete_files` pass over the input
paths. -/
theorem create_mosaic_delete_phase (s : SentryClip) (fcs : List (String × Camera))
    (w : MosaicWorld) (mf : RPath) (c0 : CameraFile) (code : Int)
    (hmf : s.mosaic_file = .ok mf) (hc : s.clips.head? = some c0)
    (hsp : w.spawn = .ok code) :
    (s.create_mosaic fcs w).outcome =
      (match (delete_files (fcs.map (fun t => t.1)) w.deleteErr w.fs0).1 with
        | .ok _ => MosaicOutcome.ok
        | .error e => MosaicOutcome.error e) ∧
    (s.create_mosaic fcs w).fs
      = (delete_files (fcs.map (fun t => t.1)) w.deleteErr w.fs0).2 := by
  unfold SentryClip.create_mosaic
  rw [hmf, hc, hsp]
  cases hdel : delete_files (fcs.map (fun t => t.1)) w.deleteErr w.fs0 with
  | mk r fs1 =>
    cases r with
    | error e => exact ⟨rfl, rfl⟩
    | ok u => exact ⟨rfl, rfl⟩

/-! ## Sample data for witnesses -/

def tsSample : NaiveDateTime := ⟨2023, 1, 2, 3, 4, 5, 0, 1672628645⟩

def folderSample : RPath := ⟨true, ["Events", "2023-01-02_03-04-05"]⟩

def camFront : Camera := ⟨"front"⟩

def camLeft : Camera := ⟨"left_repeater"⟩

def fileFront : CameraFile :=
  ⟨camFront, ⟨2023, 1, 2, 3, 4, 5, 0, 100⟩, ⟨true, ["Events", "2023-01-02_03-04-05", "front1.mp4"]⟩⟩

def fileLeft : CameraFile :=
  ⟨camLeft, ⟨2023, 1, 2, 3, 4, 7, 0, 102⟩, ⟨true, ["Events", "2023-01-02_03-04-05", "left1.mp4"]⟩⟩

def clipSample : SentryClip := ⟨folderSample, tsSample, [fileFront, fileLeft]⟩

def clipNoParent : SentryClip := ⟨⟨true, []⟩, tsSample, [fileFront]⟩

def mosaicWorldSample : MosaicWorld := ⟨.ok 0, fun _ => none, fun _ => true⟩

/-- A write-world in which every call succeeds and every `write`
transfers its whole buffer. -/
def fullWriteWorld : WriteWorld :=
  ⟨.ok (), fun _ buf => .ok buf.data.length, .ok ()⟩

/-- A write-world in which the very first `write` accepts only 3 bytes —
a legal `io::Write` outcome — and everything else succeeds in full. -/
def shortWriteWorld : WriteWorld :=
  ⟨.ok (), fun i buf => if i = 0 then .ok 3 else .ok buf.data.length, .ok ()⟩

def clipEmpty : SentryClip := ⟨folderSample, tsSample, []⟩

/-- Order witness data for the sort-stability claim: three parsed
segments, two sharing one capture instant, listed out of order. -/
def file3 : CameraFile :=
  ⟨camFront, ⟨2023, 1, 2, 3, 4, 3, 0, 3⟩, ⟨true, ["E", "c3.mp4"]⟩⟩

def file5b : CameraFile :=
  ⟨camLeft, ⟨2023, 1, 2, 3, 4, 5, 0, 5⟩, ⟨true, ["E", "b5.mp4"]⟩⟩

def file5a : CameraFile :=
  ⟨camFront, ⟨2023, 1, 2, 3, 4, 5, 0, 5⟩, ⟨true, ["E", "a5.mp4"]⟩⟩

def entry3 : DirEntryM := ⟨⟨true, ["E", "c3.mp4"]⟩, true, .ok file3⟩

def entry5b : DirEntryM := ⟨⟨true, ["E", "b5.mp4"]⟩, true, .ok file5b⟩

def entry5a : DirEntryM := ⟨⟨true, ["E", "a5.mp4"]⟩, true, .ok file5a⟩

def entryFront : DirEntryM :=
  ⟨⟨true, ["Events", "2023-01-02_03-04-05", "front1.mp4"]⟩, true, .ok fileFront⟩

def entryLeft : DirEntryM :=
  ⟨⟨true, ["Events", "2023-01-02_03-04-05", "left1.mp4"]⟩, true, .ok fileLeft⟩

/-! ## Claims -/

/-- Claim C3: whenever the playlist is written successfully and the
backend process is spawned and runs to completion,
`concatenate_camera_files` returns `Ok` with the output path, and the
result is the same for every exit code — a non-zero exit is not
distinguished from success. -/
theorem claim_C3_exit_status_not_inspected (s : SentryClip) (camera : Camera)
    (now : String) (w : ConcatWorld) (code : Int)
    (hpl : (create_temp_playlist (s.files_per_camera camera) w.playlist).result = .ok ())
    (hsp : w.spawn = .ok code) :
    (s.concatenate_camera_files camera now w).result
        = .ok ((concatTmpPath s camera).display) ∧
    ∀ (code' : Int) (w' : ConcatWorld),
      (create_temp_playlist (s.files_per_camera camera) w'.playlist).result = .ok () →
      w'.spawn = .ok code' →
      (s.concatenate_camera_files camera now w').result
        = (s.concatenate_camera_files camera now w).result := by
  refine ⟨?_, fun code' w' hpl' hsp' => ?_⟩
  · rw [concatenate_run_ok s camera now w code hpl hsp]
  · rw [concatenate_run_ok s camera now w code hpl hsp,
      concatenate_run_ok s camera now w' code' hpl' hsp']

/-- Concrete instantiation of claim C3's theorem (exit code 17, every
write transferring its full buffer). -/
theorem claim_C3_witness :
    ((create_temp_playlist (clipSample.files_per_camera camFront)
        (⟨fullWriteWorld, .ok 17⟩ : ConcatWorld).playlist).result = .ok () ∧
      (⟨fullWriteWorld, .ok 17⟩ : ConcatWorld).spawn = .ok 17) ∧
    (clipSample.concatenate_camera_files camFront "20250101_000000000"
        ⟨fullWriteWorld, .ok 17⟩).result
      = .ok ((concatTmpPath clipSample camFront).display) :=
  ⟨⟨rfl, rfl⟩,
    (claim_C3_exit_status_not_inspected clipSample camFront "20250101_000000000"
      ⟨fullWriteWorld, .ok 17⟩ 17 rfl rfl).1⟩

/-- Claim C7: the per-camera concatenation output path is
`<event-folder>/<event-timestamp>-<camera-name>-tmp.mp4`, a deterministic
function of the event timestamp and the camera (and the event folder):
two successful invocations — at different wall-clock instants and with
different backend outcomes — return the identical path string. -/
theorem claim_C7_deterministic_naming (s : SentryClip) (camera : Camera)
    (now now' : String) (w w' : ConcatWorld) (code code' : Int)
    (hpl : (create_temp_playlist (s.files_per_camera camera) w.playlist).result = .ok ())
    (hsp : w.spawn = .ok code)
    (hpl' : (create_temp_playlist (s.files_per_camera camera) w'.playlist).result = .ok ())
    (hsp' : w'.spawn = .ok code') :
    concatTmpPath s camera
        = s.folder.join (s.when.formatDashed ++ "-" ++ camera.camera_file_name ++ "-tmp.mp4") ∧
    (s.concatenate_camera_files camera now w).result
        = .ok ((concatTmpPath s camera).display) ∧
    (s.concatenate_camera_files camera now w).result
        = (s.concatenate_camera_files camera now' w').result := by
  refine ⟨rfl, ?_, ?_⟩
  · rw [concatenate_run_ok s camera now w code hpl hsp]
  · rw [concatenate_run_ok s camera now w code hpl hsp,
      concatenate_run_ok s camera now' w' code' hpl' hsp']

/-- Concrete instantiation of claim C7's theorem: two invocations with
different `now` strings and exit codes agree on the output path. -/
theorem claim_C7_witness :
    concatTmpPath clipSample camFront
        = clipSample.folder.join
            (clipSample.when.formatDashed ++ "-" ++ camFront.camera_file_name ++ "-tmp.mp4") ∧
    (clipSample.concatenate_camera_files camFront "20250101_000000000"
        ⟨fullWriteWorld, .ok 0⟩).result
      = (clipSample.concatenate_camera_files camFront "20250707_121212345"
        ⟨fullWriteWorld, .ok 5⟩).result :=
  ⟨(claim_C7_deterministic_naming clipSample camFront "20250101_000000000"
      "20250707_121212345" ⟨fullWriteWorld, .ok 0⟩ ⟨fullWriteWorld, .ok 5⟩ 0 5
      rfl rfl rfl rfl).1,
    (claim_C7_deterministic_naming clipSample camFront "20250101_000000000"
      "20250707_121212345" ⟨fullWriteWorld, .ok 0⟩ ⟨fullWriteWorld, .ok 5⟩ 0 5
      rfl rfl rfl rfl).2.2⟩

/-- Claim C9: `files_per_camera` is exactly the order-preserving
sub-sequence of `clips` whose camera equals the given identity: it is a
sublist of `clips` (same relative order, never re-sorted), an element
belongs to it iff it belongs to `clips` with the matching camera, and
matching elements keep their multiplicity. -/
theorem claim_C9_camera_filter (s : SentryClip) (camera : Camera) :
    (s.files_per_camera camera).Sublist s.clips ∧
    (∀ f, f ∈ s.files_per_camera camera ↔ f ∈ s.clips ∧ f.camera = camera) ∧
    (∀ f, f.camera = camera →
      (s.files_per_camera camera).count f = s.clips.count f) := by
  refine ⟨List.filter_sublist _, ?_, ?_⟩
  · intro f
    simp [SentryClip.files_per_camera, List.mem_filter]
  · intro f hf
    unfold SentryClip.files_per_camera
    exact List.count_filter (by simp [hf])

/-- Concrete instantiation of claim C9's theorem. -/
theorem claim_C9_witness :
    fileFront.camera = camFront ∧
    (clipSample.files_per_camera camFront).count fileFront
      = clipSample.clips.count fileFront :=
  ⟨rfl, (claim_C9_camera_filter clipSample camFront).2.2 fileFront rfl⟩

/-- Claim C10: the `create_mosaic` run — argument list, backend
invocation, outcome and resulting filesystem — depends only on the
path components of the input pairs, taken in order; camera identities
are never consulted. -/
theorem claim_C10_layout_ignores_camera_identity (s : SentryClip)
    (fcs fcs' : List (String × Camera)) (w : MosaicWorld)
    (h : fcs.map Prod.fst = fcs'.map Prod.fst) :
    s.create_mosaic fcs w = s.create_mosaic fcs' w := by
  have hmap : fcs.map (fun t => t.1) = fcs'.map (fun t => t.1) := h
  have hflat : fcs.flatMap (fun f => ["-i", f.1])
      = fcs'.flatMap (fun f => ["-i", f.1]) := by
    have h1 := List.flatMap_map (fun t : String × Camera => t.1) (fun p => ["-i", p]) fcs
    have h2 := List.flatMap_map (fun t : String × Camera => t.1) (fun p => ["-i", p]) fcs'
    rw [← h1, ← h2, hmap]
  unfold SentryClip.create_mosaic
  rw [hmap, hflat]

/-- Concrete instantiation of claim C10's theorem: same path, different
camera identity, identical run. -/
theorem claim_C10_witness :
    ([("a.mp4", camFront)].map Prod.fst = [("a.mp4", camLeft)].map Prod.fst) ∧
    clipSample.create_mosaic [("a.mp4", camFront)] mosaicWorldSample
      = clipSample.create_mosaic [("a.mp4", camLeft)] mosaicWorldSample :=
  ⟨rfl, claim_C10_layout_ignores_camera_identity clipSample _ _ mosaicWorldSample rfl⟩

/-- Claim C8: when the event folder has no parent directory, mosaic
path derivation fails with a path error, `create_mosaic` propagates it
and the backend is never invoked; otherwise the mosaic path is
`<parent-of-event-folder>/<event-timestamp>-mosaic.mp4`. -/
theorem claim_C8_missing_parent (s : SentryClip) (fcs : List (String × Camera))
    (w : MosaicWorld) :
    (s.folder.parent = none →
      s.mosaic_file = .error ("Cannot find parent folder of " ++ s.folder.display) ∧
      s.create_mosaic fcs w =
        ⟨false, [], .error ("Cannot find parent folder of " ++ s.folder.display), w.fs0⟩) ∧
    (∀ p, s.folder.parent = some p →
      s.mosaic_file = .ok (p.join (s.when.formatDashed ++ "-mosaic.mp4"))) := by
  constructor
  · intro h
    have hm : s.mosaic_file
        = .error ("Cannot find parent folder of " ++ s.folder.display) := by
      unfold SentryClip.mosaic_file
      simp only [h]
    refine ⟨hm, ?_⟩
    unfold SentryClip.create_mosaic
    rw [hm]
  · intro p h
    unfold SentryClip.mosaic_file
    simp only [h]

/-- Concrete instantiation of claim C8's theorem: a root event folder
has no parent and aborts before the backend; a nested event folder
yields the deterministic mosaic path. -/
theorem claim_C8_witness :
    (clipNoParent.folder.parent = none ∧
      clipNoParent.mosaic_file
        = .error ("Cannot find parent folder of " ++ clipNoParent.folder.display)) ∧
    (clipNoParent.create_mosaic [] mosaicWorldSample).backendInvoked = false ∧
    clipSample.folder.parent = some ⟨true, ["Events"]⟩ ∧
    clipSample.mosaic_file
      = .ok (RPath.join ⟨true, ["Events"]⟩ (clipSample.when.formatDashed ++ "-mosaic.mp4")) :=
  ⟨⟨rfl, ((claim_C8_missing_parent clipNoParent [] mosaicWorldSample).1 rfl).1⟩,
    by rw [((claim_C8_missing_parent clipNoParent [] mosaicWorldSample).1 rfl).2],
    rfl,
    (claim_C8_missing_parent clipSample [] mosaicWorldSample).2 ⟨true, ["Events"]⟩ rfl⟩

/-- Claim C4: when `create_mosaic` returns successfully every input path
has been deleted; when deleting one input fails (all inputs before it
deletable, that one not), the first error is propagated, the earlier
inputs stay deleted, and nothing outside the already-processed prefix is
touched — cleanup is non-atomic. -/
theorem claim_C4_mosaic_cleanup (s : SentryClip) (fcs : List (String × Camera))
    (w : MosaicWorld) :
    ((s.create_mosaic fcs w).outcome = .ok →
      ∀ p ∈ fcs.map (fun t => t.1), (s.create_mosaic fcs w).fs p = false) ∧
    (∀ pre bad post e code,
      fcs.map (fun t => t.1) = pre ++ bad :: post →
      (∀ q ∈ pre, w.deleteErr q = none) → w.deleteErr bad = some e →
      s.clips ≠ [] → (∃ mf, s.mosaic_file = .ok mf) → w.spawn = .ok code →
      (s.create_mosaic fcs w).outcome = .error e ∧
      (∀ q ∈ pre, (s.create_mosaic fcs w).fs q = false) ∧
      (∀ q, q ∉ pre → (s.create_mosaic fcs w).fs q = w.fs0 q)) := by
  constructor
  · intro hok p hp
    cases hmf : s.mosaic_file with
    | error e =>
      unfold SentryClip.create_mosaic at hok
      rw [hmf] at hok
      exact absurd hok (by simp)
    | ok mf =>
      cases hc : s.clips.head? with
      | none =>
        unfold SentryClip.create_mosaic at hok
        rw [hmf, hc] at hok
        exact absurd hok (by simp)
      | some c0 =>
        cases hsp : w.spawn with
        | error e =>
          unfold SentryClip.create_mosaic at hok
          rw [hmf, hc, hsp] at hok
          exact absurd hok (by simp)
        | ok code =>
          obtain ⟨ho, hfs⟩ := create_mosaic_delete_phase s fcs w mf c0 code hmf hc hsp
          rw [ho] at hok
          rw [hfs]
          cases hr : (delete_files (fcs.map (fun t => t.1)) w.deleteErr w.fs0).1 with
          | error e => rw [hr] at hok; exact absurd hok (by simp)
          | ok u =>
            cases u
            exact delete_files_ok_all_deleted _ _ _ hr p hp
  · intro pre bad post e code hsplit hpre hbad hclips hex hsp
    obtain ⟨mf, hmf⟩ := hex
    have hc : ∃ c0, s.clips.head? = some c0 := by
      cases hcl : s.clips with
      | nil => exact absurd hcl hclips
      | cons a l => exact ⟨a, rfl⟩
    obtain ⟨c0, hc⟩ := hc
    obtain ⟨ho, hfs⟩ := create_mosaic_delete_phase s fcs w mf c0 code hmf hc hsp
    rw [hsplit] at ho hfs
    obtain ⟨h1, h2, h3⟩ := delete_files_first_error w.deleteErr pre bad post w.fs0 e hpre hbad
    rw [h1] at ho
    refine ⟨ho, ?_, ?_⟩
    · intro q hq
      rw [hfs]
      exact h2 q hq
    · intro q hq
      rw [hfs]
      exact h3 q hq

/-- Concrete instantiation of claim C4's theorem: two inputs, the second
undeletable — the first is gone, the error propagates, the second and
unrelated paths are untouched. -/
theorem claim_C4_witness :
    ([("a.mp4", camFront), ("b.mp4", camLeft)].map
        (fun t : String × Camera => t.1) = ["a.mp4"] ++ "b.mp4" :: []) ∧
    ((clipSample.create_mosaic [("a.mp4", camFront), ("b.mp4", camLeft)]
        ⟨.ok 0, fun p => if p = "b.mp4" then some "io error" else none,
          fun _ => true⟩).outcome = .error "io error" ∧
      (clipSample.create_mosaic [("a.mp4", camFront), ("b.mp4", camLeft)]
        ⟨.ok 0, fun p => if p = "b.mp4" then some "io error" else none,
          fun _ => true⟩).fs "a.mp4" = false ∧
      (clipSample.create_mosaic [("a.mp4", camFront), ("b.mp4", camLeft)]
        ⟨.ok 0, fun p => if p = "b.mp4" then some "io error" else none,
          fun _ => true⟩).fs "b.mp4" = true) := by
  have h := (claim_C4_mosaic_cleanup clipSample [("a.mp4", camFront), ("b.mp4", camLeft)]
      ⟨.ok 0, fun p => if p = "b.mp4" then some "io error" else none, fun _ => true⟩).2
      ["a.mp4"] "b.mp4" [] "io error" 0 rfl
      (by intro q hq; simp at hq; subst hq; rfl)
      rfl (by simp [clipSample, fileFront, fileLeft])
      ⟨RPath.join ⟨true, ["Events"]⟩ (clipSample.when.formatDashed ++ "-mosaic.mp4"),
        mosaic_file_of_parent_some clipSample ⟨true, ["Events"]⟩ rfl⟩ rfl
  refine ⟨rfl, h.1, h.2.1 "a.mp4" (by simp), ?_⟩
  rw [h.2.2 "b.mp4" (by simp)]

/-- Counterexample to claim C2: on an Event Aggregate with zero segments
`is_empty()` is true, but `create_mosaic` panics (the `clips[0]` index)
rather than rejecting the call or completing as a no-op, and
`concatenate_camera_files` on an empty camera selection still invokes the
backend. -/
theorem claim_C2_counterexample :
    clipEmpty.is_empty = true ∧
    (clipEmpty.create_mosaic [] mosaicWorldSample).outcome = .panicked ∧
    (clipEmpty.concatenate_camera_files camFront "20250101_000000000"
        ⟨fullWriteWorld, .ok 0⟩).backendInvoked = true := by
  refine ⟨rfl, rfl, ?_⟩
  rw [concatenate_run_ok clipEmpty camFront "20250101_000000000"
    ⟨fullWriteWorld, .ok 0⟩ 0 rfl rfl]

/-- Claim C2 (amended): an Event Aggregate with zero segments reports
`is_empty() == true`; however, neither operation rejects an empty
selection: `concatenate_camera_files` on an empty camera selection writes
an empty playlist and still invokes the backend, and `create_mosaic` on
an aggregate with zero segments (with a derivable mosaic path) panics on
the first-segment access before invoking the backend. -/
theorem claim_C2_amended_empty_event (s : SentryClip) (camera : Camera) (now : String)
    (fcs : List (String × Camera)) (w : MosaicWorld) :
    (s.is_empty = true ↔ s.clips = []) ∧
    (s.files_per_camera camera = [] → ∀ w' : ConcatWorld,
      w'.playlist.create = .ok () → w'.playlist.sync = .ok () →
      (s.concatenate_camera_files camera now w').playlist = ⟨"", true, .ok ()⟩ ∧
      (s.concatenate_camera_files camera now w').backendInvoked = true) ∧
    (s.clips = [] → ∀ p, s.folder.parent = some p →
      (s.create_mosaic fcs w).outcome = .panicked ∧
      (s.create_mosaic fcs w).backendInvoked = false) := by
  refine ⟨?_, ?_, ?_⟩
  · simp [SentryClip.is_empty, List.isEmpty_iff]
  · intro h w' hc hs
    have hpl : create_temp_playlist (s.files_per_camera camera) w'.playlist
        = ⟨"", true, .ok ()⟩ := by
      rw [h]
      unfold create_temp_playlist
      rw [hc, hs]
      rfl
    have hstem :
        (s.folder.join (s.when.formatDashed ++ "-" ++ camera.camera_file_name ++ ".mp4")).fileStem
          = some (s.when.formatDashed ++ "-" ++ camera.camera_file_name) := by
      rw [fileStem_join, stemOfName_append_mp4 _ (dashed_ne_empty _ _)]
    unfold SentryClip.concatenate_camera_files
    simp only [hpl, hstem]
    cases w'.spawn with
    | error e => exact ⟨rfl, rfl⟩
    | ok c => exact ⟨rfl, rfl⟩
  · intro h p hp
    have hm := mosaic_file_of_parent_some s p hp
    unfold SentryClip.create_mosaic
    rw [hm, h]
    exact ⟨rfl, rfl⟩

/-- Concrete instantiation of claim C2's amended theorem on an aggregate
with zero segments. -/
theorem claim_C2_witness :
    (clipEmpty.files_per_camera camFront = [] ∧ clipEmpty.clips = [] ∧
      clipEmpty.folder.parent = some ⟨true, ["Events"]⟩ ∧
      fullWriteWorld.create = .ok () ∧ fullWriteWorld.sync = .ok ()) ∧
    clipEmpty.is_empty = true ∧
    (clipEmpty.concatenate_camera_files camFront "20250101_000000000"
        ⟨fullWriteWorld, .ok 0⟩).playlist = ⟨"", true, .ok ()⟩ ∧
    (clipEmpty.create_mosaic [] mosaicWorldSample).outcome = .panicked :=
  ⟨⟨rfl, rfl, rfl, rfl, rfl⟩,
    (claim_C2_amended_empty_event clipEmpty camFront "20250101_000000000" []
      mosaicWorldSample).1.mpr rfl,
    ((claim_C2_amended_empty_event clipEmpty camFront "20250101_000000000" []
      mosaicWorldSample).2.1 rfl ⟨fullWriteWorld, .ok 0⟩ rfl rfl).1,
    ((claim_C2_amended_empty_event clipEmpty camFront "20250101_000000000" []
      mosaicWorldSample).2.2 rfl ⟨true, ["Events"]⟩ rfl).1⟩

/-- Counterexample to claim C5: a failure of the directory listing itself
(`read_dir()?`) is propagated and aborts Event Aggregate construction —
it is not recovered locally. -/
theorem claim_C5_counterexample :
    SentryClip.from_folder folderSample (.error "read_dir failed") (.ok tsSample)
      = .error "read_dir failed" := rfl

/-- Claim C5 (amended): per-entry enumeration failures are recovered
locally — an errored entry is dropped (logged) and construction proceeds
exactly as if the entry were absent, never fatally; a failure of the
directory listing itself, however, propagates out of `from_folder`. -/
theorem claim_C5_amended_enumeration (folder : RPath)
    (tsParse : Except String NaiveDateTime) :
    (∀ entries ts, tsParse = .ok ts →
      SentryClip.from_folder folder (.ok entries) tsParse
        = .ok ⟨folder, ts,
            ((entries.filterMap keep_file_entry).filterMap
              (fun e => e.parseResult.toOption)).mergeSort CameraFile.le⟩) ∧
    (∀ (pre post : List (Except String DirEntryM)) (e : String),
      list_files (.ok (pre ++ .error e :: post)) = list_files (.ok (pre ++ post))) ∧
    (∀ e, SentryClip.from_folder folder (.error e) tsParse = .error e) := by
  refine ⟨?_, ?_, ?_⟩
  · intro entries ts h
    unfold SentryClip.from_folder process_folder collect_clips list_files
    rw [h]
    rfl
  · intro pre post e
    show Except.ok ((pre ++ .error e :: post).filterMap keep_file_entry)
        = Except.ok ((pre ++ post).filterMap keep_file_entry)
    simp [List.filterMap_append, List.filterMap_cons, keep_file_entry]
  · intro e
    rfl

/-- Concrete instantiation of claim C5's amended theorem: a listing with
a bad entry still produces an aggregate; a failed listing aborts. -/
theorem claim_C5_witness :
    ((.ok tsSample : Except String NaiveDateTime) = .ok tsSample) ∧
    SentryClip.from_folder folderSample
        (.ok [.ok entryFront, .error "stat failed", .ok entryLeft]) (.ok tsSample)
      = .ok ⟨folderSample, tsSample,
          (([.ok entryFront, .error "stat failed", .ok entryLeft].filterMap
              keep_file_entry).filterMap
            (fun e => e.parseResult.toOption)).mergeSort CameraFile.le⟩ ∧
    list_files (.ok ([.ok entryFront] ++ .error "boom" :: [.ok entryLeft]))
      = list_files (.ok ([.ok entryFront] ++ [.ok entryLeft])) ∧
    SentryClip.from_folder folderSample (.error "boom") (.ok tsSample) = .error "boom" :=
  ⟨rfl,
    (claim_C5_amended_enumeration folderSample (.ok tsSample)).1 _ tsSample rfl,
    (claim_C5_amended_enumeration folderSample (.ok tsSample)).2.1
      [.ok entryFront] [.ok entryLeft] "boom",
    (claim_C5_amended_enumeration folderSample (.ok tsSample)).2.2 "boom"⟩

/-- Claim C1: after `from_folder`'s `process_folder`, the clip sequence is
non-decreasing by capture start time, and for every capture instant the
clips at that instant appear exactly as in the pre-sort discovery order —
the sort is stable. -/
theorem claim_C1_sorted_stable (listing : Listing) (clips raw : List CameraFile)
    (hp : process_folder listing = .ok clips)
    (hc : collect_clips listing = .ok raw) :
    clips.Pairwise
      (fun a b => a.start_time.timestamp ≤ b.start_time.timestamp) ∧
    ∀ t : Int, clips.filter (fun f => f.start_time.timestamp == t)
        = raw.filter (fun f => f.start_time.timestamp == t) := by
  have htrans : ∀ a b c : CameraFile, CameraFile.le a b = true →
      CameraFile.le b c = true → CameraFile.le a c = true := by
    intro a b c hab hbc
    simp only [CameraFile.le, decide_eq_true_eq] at hab hbc ⊢
    omega
  have htotal : ∀ a b : CameraFile,
      (CameraFile.le a b || CameraFile.le b a) = true := by
    intro a b
    simp only [CameraFile.le, Bool.or_eq_true, decide_eq_true_eq]
    omega
  have hm : clips = raw.mergeSort CameraFile.le := by
    unfold process_folder at hp
    rw [hc] at hp
    exact (Except.ok.inj hp).symm
  subst hm
  constructor
  · exact (List.sorted_mergeSort htrans htotal raw).imp
      (fun h => by
        simpa only [CameraFile.le, decide_eq_true_eq] using h)
  · intro t
    have hallp : ∀ f ∈ raw.filter (fun f => f.start_time.timestamp == t),
        (f.start_time.timestamp == t) = true :=
      fun f hf => (List.mem_filter.mp hf).2
    have hpair : (raw.filter (fun f => f.start_time.timestamp == t)).Pairwise
        (fun a b => CameraFile.le a b = true) := by
      apply List.pairwise_of_forall_mem_list
      intro a ha b hb
      have ha' : a.start_time.timestamp = t := by
        have := (List.mem_filter.mp ha).2
        exact eq_of_beq this
      have hb' : b.start_time.timestamp = t := by
        have := (List.mem_filter.mp hb).2
        exact eq_of_beq this
      simp only [CameraFile.le, decide_eq_true_eq]
      omega
    have hstab : (raw.filter (fun f => f.start_time.timestamp == t)).Sublist
        (raw.mergeSort CameraFile.le) :=
      List.sublist_mergeSort htrans htotal hpair (List.filter_sublist raw)
    have hfiltered : (raw.filter (fun f => f.start_time.timestamp == t)).Sublist
        ((raw.mergeSort CameraFile.le).filter (fun f => f.start_time.timestamp == t)) := by
      have h1 := List.Sublist.filter (fun f => f.start_time.timestamp == t) hstab
      rwa [List.filter_eq_self.mpr hallp] at h1
    have hlen : ((raw.mergeSort CameraFile.le).filter
          (fun f => f.start_time.timestamp == t)).length
        = (raw.filter (fun f => f.start_time.timestamp == t)).length :=
      (List.Perm.filter _ (List.mergeSort_perm raw CameraFile.le)).length_eq
    exact (hfiltered.eq_of_length hlen.symm).symm

/-- Concrete instantiation of claim C1's theorem: two segments tied at
instant 5 keep their discovery order after the sort. -/
theorem claim_C1_witness :
    process_folder (.ok [.ok entry5b, .ok entry3, .ok entry5a])
        = .ok [file3, file5b, file5a] ∧
    collect_clips (.ok [.ok entry5b, .ok entry3, .ok entry5a])
        = .ok [file5b, file3, file5a] ∧
    [file3, file5b, file5a].filter (fun f => f.start_time.timestamp == 5)
      = [file5b, file3, file5a].filter (fun f => f.start_time.timestamp == 5) := by
  have hc : collect_clips (.ok [.ok entry5b, .ok entry3, .ok entry5a])
      = .ok [file5b, file3, file5a] := rfl
  have hp : process_folder (.ok [.ok entry5b, .ok entry3, .ok entry5a])
      = .ok [file3, file5b, file5a] := by
    unfold process_folder
    rw [hc]
    show Except.ok ([file5b, file3, file5a].mergeSort CameraFile.le) = _
    simp [List.mergeSort, CameraFile.le, file3, file5b, file5a]
  exact ⟨hp, hc,
    (claim_C1_sorted_stable (.ok [.ok entry5b, .ok entry3, .ok entry5a])
      [file3, file5b, file5a] [file5b, file3, file5a] hp hc).2 5⟩

theorem splitLines_append_newline (l rest : List Char) (h : '\n' ∉ l) :
    splitLines (l ++ '\n' :: rest) = l :: splitLines rest := by
  induction l with
  | nil => simp [splitLines]
  | cons c cs ih =>
    have hc : c ≠ '\n' := fun hc => h (hc ▸ List.mem_cons_self c cs)
    have h' : '\n' ∉ cs := fun hm => h (List.mem_cons_of_mem _ hm)
    simp only [List.cons_append, splitLines, if_neg hc]
    rw [show cs.append ('\n' :: rest) = cs ++ '\n' :: rest from rfl, ih h']

theorem splitLines_rows (rows : List (List Char)) (h : ∀ r ∈ rows, '\n' ∉ r) :
    splitLines ((rows.map (fun r => r ++ ['\n'])).flatten) = rows ++ [[]] := by
  induction rows with
  | nil => simp [splitLines]
  | cons r rs ih =>
    simp only [List.map_cons, List.flatten_cons]
    have hshape : (r ++ ['\n']) ++ ((rs.map (fun r => r ++ ['\n'])).flatten)
        = r ++ '\n' :: ((rs.map (fun r => r ++ ['\n'])).flatten) := by simp
    rw [hshape, splitLines_append_newline _ _ (h r (List.mem_cons_self _ _)),
      ih (fun x hx => h x (List.mem_cons_of_mem _ hx))]
    simp

/-- The playlist bytes are exactly the `file '<path>'` rows, each with a
trailing newline, concatenated in input order. -/
theorem playlistContent_data (files : List CameraFile) :
    (playlistContent files).data
      = ((files.map (fun c => ("file '" ++ c.path.display ++ "'").data)).map
          (fun r => r ++ ['\n'])).flatten := by
  suffices h : ∀ acc : String,
      (files.foldl (fun acc c => acc ++ ("file '" ++ c.path.display ++ "'") ++ "\n") acc).data
        = acc.data ++ ((files.map (fun c => ("file '" ++ c.path.display ++ "'").data)).map
            (fun r => r ++ ['\n'])).flatten by
    have h0 := h ""
    simpa [playlistContent] using h0
  induction files with
  | nil => intro acc; simp
  | cons f fs ih =>
    intro acc
    simp only [List.foldl_cons, List.map_cons, List.flatten_cons]
    rw [ih]
    simp [String.data_append]

theorem row_no_newline (p : String) (h : '\n' ∉ p.data) :
    '\n' ∉ ("file '" ++ p ++ "'").data := by
  have hd : ("file '" ++ p ++ "'").data
      = "file '".data ++ (p.data ++ ['\'']) := by
    simp [String.data_append]
  rw [hd]
  intro hm
  rcases List.mem_append.mp hm with hm1 | hm2
  · exact absurd hm1 (by decide)
  · rcases List.mem_append.mp hm2 with hm3 | hm4
    · exact h hm3
    · simp at hm4

theorem parse_row (p : String) :
    (⟨((("file '" ++ p ++ "'").data).drop 6).dropLast⟩ : String) = p := by
  have hd : ("file '" ++ p ++ "'").data
      = ['f', 'i', 'l', 'e', ' ', '\''] ++ (p.data ++ ['\'']) := by
    simp [String.data_append]
  rw [hd]
  have hdrop : List.drop 6 (['f', 'i', 'l', 'e', ' ', '\''] ++ (p.data ++ ['\'']))
      = p.data ++ ['\''] := rfl
  rw [hdrop, List.dropLast_concat]

/-- `String.mk` applied to a string's character list is the string
itself. -/
theorem string_mk_data (s : String) : (⟨s.data⟩ : String) = s := rfl

/-- When every `write` transfers its whole buffer, the write loop puts
exactly the concatenation of the rows into the file and succeeds. -/
theorem run_writes_full (files : List CameraFile)
    (res : Nat → String → Except String Nat)
    (h : ∀ j buf, res j buf = .ok buf.data.length) :
    ∀ (i : Nat) (acc : String),
      run_writes (files.flatMap (fun c => ["file '" ++ c.path.display ++ "'", "\n"]))
          res i acc
        = (files.foldl (fun a c => a ++ ("file '" ++ c.path.display ++ "'") ++ "\n") acc,
            .ok ()) := by
  induction files with
  | nil => intro i acc; rfl
  | cons f fs ih =>
    intro i acc
    simp only [List.flatMap_cons, List.cons_append, List.nil_append, run_writes, h,
      min_self, List.take_length, string_mk_data, List.foldl_cons]
    exact ih _ _

/-- Under full writes, `create_temp_playlist` produces exactly the full
playlist text, synced, with an `Ok` result. -/
theorem create_temp_playlist_full (files : List CameraFile) (w : WriteWorld)
    (hc : w.create = .ok ()) (hwr : ∀ j buf, w.writeRes j buf = .ok buf.data.length)
    (hs : w.sync = .ok ()) :
    create_temp_playlist files w = ⟨playlistContent files, true, .ok ()⟩ := by
  unfold create_temp_playlist
  simp only [hc, run_writes_full files w.writeRes hwr 0 "", hs]
  rfl

/-- The property claim C6 intends, provable only under the extra
assumption that every `write` call transfers its whole buffer: the file
then holds exactly one `file '<path>'` line per segment, in order,
synced, and parsing recovers the path list. The code does not guarantee
this assumption — see `claim_C6_short_write_bug`. -/
theorem playlist_roundtrip_of_full_writes (files : List CameraFile) (w : WriteWorld)
    (hc : w.create = .ok ()) (hwr : ∀ j buf, w.writeRes j buf = .ok buf.data.length)
    (hs : w.sync = .ok ())
    (h : ∀ f ∈ files, '\n' ∉ (f.path.display).data) :
    create_temp_playlist files w = ⟨playlistContent files, true, .ok ()⟩ ∧
    splitLines (playlistContent files).data
        = (files.map (fun f => ("file '" ++ f.path.display ++ "'").data)) ++ [[]] ∧
    parsePlaylist (playlistContent files) = files.map (fun f => f.path.display) := by
  have hlines : splitLines (playlistContent files).data
      = (files.map (fun f => ("file '" ++ f.path.display ++ "'").data)) ++ [[]] := by
    rw [playlistContent_data]
    exact splitLines_rows _ (by
      intro r hr
      rcases List.mem_map.mp hr with ⟨f, hf, rfl⟩
      exact row_no_newline _ (h f hf))
  refine ⟨create_temp_playlist_full files w hc hwr hs, hlines, ?_⟩
  unfold parsePlaylist
  rw [hlines, List.dropLast_concat, List.map_map]
  apply List.map_congr_left
  intro f hf
  exact parse_row f.path.display

/-- Claim C6 (code bug): the guarantee fails on the code.
`create_temp_playlist` calls `File::write` and discards the returned
byte count (clip.rs:108-109), so a short write — a legal `io::Write`
outcome — is silently accepted: on a one-segment list, a world whose
first `write` accepts only 3 bytes makes the call return `Ok` with
`sync_all` completed while the playlist holds the truncated text
`fil\n` instead of the required `file '<path>'` line, and parsing does
not recover the path list. -/
theorem claim_C6_short_write_bug :
    create_temp_playlist [fileFront] shortWriteWorld = ⟨"fil\n", true, .ok ()⟩ ∧
    playlistContent [fileFront]
      = "file '/Events/2023-01-02_03-04-05/front1.mp4'\n" ∧
    parsePlaylist "fil\n" ≠ [fileFront.path.display] := by
  refine ⟨?_, ?_, ?_⟩
  · rfl
  · rfl
  · decide
